import Mathlib

/-!
Verification development for the Nutri_Scan single-page application
(`src/index.tsx`).  The definitions below are a shallow embedding of the
analyze / parse / persist pipeline of the source file:

* `sentinelParts`   models `fullText.split("---JSON---")` (JavaScript
  `String.prototype.split` with a non-empty literal separator: left-to-right,
  non-overlapping occurrences);
* `stripFences`     models `.replace(/```json|```/g, "")`;
* `findCalories`    models `fullText.match(/Calories:?\s*(\d+)/i)` followed by
  `parseInt` of the captured digit run;
* `parseStep`       models the parse block of `handleAnalyze`
  (src/index.tsx:562-576), `parseStepText` the parse block of
  `handleTextAnalyze` (src/index.tsx:690-701); both are parameterised by the
  JSON parser `jp` standing for `JSON.parse` restricted to results of the
  macro-object shape (`none` models a thrown syntax error);
* `jsonParseMacros` is a concrete executable instance of `jp`: `JSON.parse`
  restricted to flat objects with the four keys in the order the prompt
  requests and integer values — on every string in this fragment real
  `JSON.parse` returns exactly the object this parser returns;
* `handleAnalyzeM` / `handleTextAnalyzeM` model the two handlers as pure
  functions from the service/store outcomes and the component state to the
  final state plus the list of observable external effects;
* `loadHistorySelect` models the store executing the history query
  `.order("created_at", { ascending: false }).limit(20)`
  (src/index.tsx:454-459); the remote store itself is an external
  collaborator, its select contract is taken from the request the code sends.

Numbers carried by macro fields are modelled as integers (the JSON fragment
the prompt requests uses plain numerals).
-/

/-- The macro set `{calories, protein, fat, carbs}` (src/index.tsx:74-79). -/
structure Macros where
  calories : Int
  protein : Int
  fat : Int
  carbs : Int
deriving Repr, DecidableEq, Inhabited

/-- The all-zero macro object `{ calories: 0, protein: 0, fat: 0, carbs: 0 }`. -/
def zeroMacros : Macros := { calories := 0, protein := 0, fat := 0, carbs := 0 }

/-- A grounding citation `{uri, title}` (src/index.tsx:88). -/
structure GroundingSource where
  uri : String
  title : String
deriving Repr, DecidableEq, Inhabited

/-- The `AnalysisResult` record (src/index.tsx:81-89). -/
structure AnalysisResult where
  id : Option Nat
  name : String
  summary : String
  macros : Macros
  imageUrl : Option String
  timestamp : Option Nat
  sources : List GroundingSource
deriving Repr, DecidableEq, Inhabited

/-- The sentinel marker separating summary from the machine block. -/
def sentinel : String := "---JSON---"

/-- The sentinel as a character list (ten characters). -/
def sentinelL : List Char := sentinel.toList

/-- Auxiliary splitter: JavaScript `split` with separator `"---JSON---"`,
scanning left to right; `acc` is the reversed current chunk.  The fuel
argument (initialised to the text length, consumed one unit per examined
character) only makes the recursion structural; it never runs out on the
initial call. -/
def splitSentinelGo : Nat → List Char → List Char → List (List Char)
  | _, acc, [] => [acc.reverse]
  | Nat.succ fuel, acc, c :: cs =>
    if sentinelL.isPrefixOf (c :: cs) then
      acc.reverse :: splitSentinelGo fuel [] ((c :: cs).drop 10)
    else
      splitSentinelGo fuel (c :: acc) cs
  | 0, acc, rest => [acc.reverse ++ rest]

/-- `t.split("---JSON---")` from JavaScript: the list of chunks between
left-to-right non-overlapping occurrences of the sentinel. -/
def sentinelParts (t : String) : List String :=
  (splitSentinelGo t.toList.length [] t.toList).map List.asString

/-- `true` exactly when the JavaScript split sees at least one occurrence of
the sentinel in `t` (`jsonSplit.length > 1` in the source). -/
def containsSentinel (t : String) : Bool :=
  1 < (sentinelParts t).length

/-- The characters of the fence openers removed by
`.replace(/```json|```/g, "")`. -/
def fenceJsonL : List Char := "```json".toList

/-- The plain code fence. -/
def fenceL : List Char := "```".toList

/-- Global regex replacement `/```json|```/g` by the empty string: at each
position the longer alternative `"```json"` (seven characters) is tried
first, then `"```"` (three characters); on a match scanning resumes after
the removed occurrence. -/
def stripFencesGo : Nat → List Char → List Char
  | _, [] => []
  | Nat.succ fuel, c :: cs =>
    if fenceJsonL.isPrefixOf (c :: cs) then stripFencesGo fuel ((c :: cs).drop 7)
    else if fenceL.isPrefixOf (c :: cs) then stripFencesGo fuel ((c :: cs).drop 3)
    else c :: stripFencesGo fuel cs
  | 0, l => l

/-- `s.replace(/```json|```/g, "")` on strings. -/
def stripFences (s : String) : String := (stripFencesGo s.toList.length s.toList).asString

/-- JavaScript `\s` on the ASCII range: space, tab, line feed, vertical tab,
form feed, carriage return. -/
def jsWs (c : Char) : Bool :=
  c = ' ' || c = '\t' || c = '\n' || c = '\r' || c = Char.ofNat 11 || c = Char.ofNat 12

/-- JavaScript `String.prototype.trim` (ASCII whitespace): drop the leading
and the trailing whitespace run. -/
def jsTrimL (l : List Char) : List Char :=
  ((l.dropWhile jsWs).reverse.dropWhile jsWs).reverse

/-- `s.trim()` on strings. -/
def jsTrim (s : String) : String := (jsTrimL s.toList).asString

/-- Numeric value of a run of decimal digits (`parseInt` on a `\d+` capture). -/
def digitsToNat (ds : List Char) : Nat :=
  ds.foldl (fun acc c => acc * 10 + (c.toNat - 48)) 0

/-- Lower-cased letters of the literal `Calories`. -/
def caloriesLit : List Char := "calories".toList

/-- Try the regex `/Calories:?\s*(\d+)/i` anchored at the head of `l`:
case-insensitive literal `Calories`, an optional colon, a whitespace run,
then at least one digit; returns the greedy `(\d+)` capture's value. -/
def matchCaloriesAt (l : List Char) : Option Nat :=
  if (l.take 8).map Char.toLower = caloriesLit then
    let r1 := l.drop 8
    let r2 := match r1 with
      | ':' :: t => t
      | _ => r1
    let r3 := r2.dropWhile jsWs
    let ds := r3.takeWhile Char.isDigit
    if ds = [] then none else some (digitsToNat ds)
  else none

/-- Scan for the first match of `/Calories:?\s*(\d+)/i`, one starting
position at a time, as the JavaScript regex engine does. -/
def findCaloriesL : List Char → Option Nat
  | [] => none
  | c :: cs =>
    match matchCaloriesAt (c :: cs) with
    | some n => some n
    | none => findCaloriesL cs

/-- `fullText.match(/Calories:?\s*(\d+)/i)` followed by `parseInt` of the
capture: the value recovered by the calorie fallback, when a match exists. -/
def findCalories (t : String) : Option Nat := findCaloriesL t.toList

/-- The parse block of `handleAnalyze` (src/index.tsx:562-576): split on the
sentinel; with no occurrence the summary is the untouched full text and the
macros stay zero; otherwise the summary is the trimmed first chunk and the
second chunk, fences stripped and trimmed, goes to `JSON.parse` (modelled by
`jp`); on a parse failure the macros stay zero except `calories`, recovered
by the regex fallback scanning the *full* response text. -/
def parseStep (jp : String → Option Macros) (fullText : String) : String × Macros :=
  match sentinelParts fullText with
  | s0 :: s1 :: _ =>
    let summary := jsTrim s0
    let jsonStr := jsTrim (stripFences s1)
    match jp jsonStr with
    | some m => (summary, m)
    | none =>
      (summary,
        { calories := ((findCalories fullText).getD 0 : Nat)
          protein := 0, fat := 0, carbs := 0 })
  | _ => (fullText, zeroMacros)

/-- The parse block of `handleTextAnalyze` (src/index.tsx:690-701): identical
to `parseStep` except that the catch block only logs — there is no calorie
regex fallback, the macros stay all zero on a parse failure. -/
def parseStepText (jp : String → Option Macros) (fullText : String) : String × Macros :=
  match sentinelParts fullText with
  | s0 :: s1 :: _ =>
    let summary := jsTrim s0
    let jsonStr := jsTrim (stripFences s1)
    match jp jsonStr with
    | some m => (summary, m)
    | none => (summary, zeroMacros)
  | _ => (fullText, zeroMacros)

/-- Skip a run of JSON whitespace. -/
def skipWs (l : List Char) : List Char := l.dropWhile jsWs

/-- Consume one expected character. -/
def expectChar (c : Char) : List Char → Option (List Char)
  | x :: xs => if x = c then some xs else none
  | [] => none

/-- Consume an expected literal. -/
def expectLit (s : List Char) (l : List Char) : Option (List Char) :=
  if s.isPrefixOf l then some (l.drop s.length) else none

/-- Parse a JSON integer: an optional minus sign and a digit run. -/
def parseIntL : List Char → Option (Int × List Char)
  | '-' :: rest =>
    let ds := rest.takeWhile Char.isDigit
    if ds = [] then none else some (-(digitsToNat ds : Int), rest.drop ds.length)
  | l =>
    let ds := l.takeWhile Char.isDigit
    if ds = [] then none else some ((digitsToNat ds : Int), l.drop ds.length)

/-- Parse `"key" : <integer>` with surrounding whitespace. -/
def parseKeyNum (key : List Char) (l : List Char) : Option (Int × List Char) := do
  let l := skipWs l
  let l ← expectChar '"' l
  let l ← expectLit key l
  let l ← expectChar '"' l
  let l := skipWs l
  let l ← expectChar ':' l
  let l := skipWs l
  parseIntL l

/-- `JSON.parse` restricted to the object shape the prompt requests
(src/index.tsx:539-544): a flat object with the keys `calories`, `protein`,
`fat`, `carbs` in this order and integer values; `none` models a thrown
`SyntaxError`.  On every string of this fragment the real `JSON.parse`
returns exactly the object returned here. -/
def jsonParseMacros (s : String) : Option Macros := do
  let l := skipWs s.toList
  let l ← expectChar (Char.ofNat 123) l
  let (cal, l) ← parseKeyNum "calories".toList l
  let l := skipWs l
  let l ← expectChar ',' l
  let (pro, l) ← parseKeyNum "protein".toList l
  let l := skipWs l
  let l ← expectChar ',' l
  let (fa, l) ← parseKeyNum "fat".toList l
  let l := skipWs l
  let l ← expectChar ',' l
  let (car, l) ← parseKeyNum "carbs".toList l
  let l := skipWs l
  let l ← expectChar (Char.ofNat 125) l
  if skipWs l = [] then
    some { calories := cal, protein := pro, fat := fa, carbs := car }
  else none

/-- A row of the remote `history` table (src/index.tsx §6: columns
`{id, name, summary, image_url, calories, protein, fat, carbs, created_at}`;
`id` and `created_at` are assigned by the store). -/
structure StoredRow where
  id : Nat
  created_at : Nat
  name : String
  summary : String
  image_url : String
  calories : Int
  protein : Int
  fat : Int
  carbs : Int
deriving Repr, DecidableEq, Inhabited

/-- The flat row shape `handleAnalyze` inserts (src/index.tsx:595-603). -/
structure RowInsert where
  name : String
  summary : String
  image_url : String
  calories : Int
  protein : Int
  fat : Int
  carbs : Int
deriving Repr, DecidableEq, Inhabited

/-- The row the insert of src/index.tsx:595-603 sends to the store. -/
def toInsertRow (name summary image_url : String) (m : Macros) : RowInsert :=
  { name := name, summary := summary, image_url := image_url,
    calories := m.calories, protein := m.protein, fat := m.fat, carbs := m.carbs }

/-- The store completing an insert: it assigns `id` and `created_at` and keeps
the seven inserted columns. -/
def storeRow (rid created : Nat) (r : RowInsert) : StoredRow :=
  { id := rid, created_at := created, name := r.name, summary := r.summary,
    image_url := r.image_url, calories := r.calories, protein := r.protein,
    fat := r.fat, carbs := r.carbs }

/-- The row-to-record mapping of `loadHistory` (src/index.tsx:466-480). -/
def rowToRecord (item : StoredRow) : AnalysisResult :=
  { id := some item.id
    name := item.name
    summary := item.summary
    macros :=
      { calories := item.calories, protein := item.protein,
        fat := item.fat, carbs := item.carbs }
    imageUrl := some item.image_url
    timestamp := some item.created_at
    sources := [] }

/-- Descending order on `created_at`, the order
`.order("created_at", { ascending: false })` requests. -/
def createdDesc (a b : StoredRow) : Prop := b.created_at ≤ a.created_at

instance : DecidableRel createdDesc := fun a b => Nat.decLe b.created_at a.created_at

instance : IsTotal StoredRow createdDesc :=
  ⟨fun a b => Nat.le_total b.created_at a.created_at⟩

instance : IsTrans StoredRow createdDesc :=
  ⟨fun _ _ _ hab hbc => Nat.le_trans hbc hab⟩

/-- The limit the history query requests (src/index.tsx:459). -/
def historyLimit : Nat := 20

/-- Modelled from the spec: the remote store (an external collaborator, not
code under src/) executing the select-recent request the code sends in
`loadHistory` (src/index.tsx:454-459) — "order by creation descending,
limit N": the table sorted by descending `created_at`, truncated to the
first `historyLimit` rows. -/
def loadHistorySelect (table : List StoredRow) : List StoredRow :=
  (List.insertionSort createdDesc table).take historyLimit

/-- The records `loadHistory` stores into the `history` state on a successful
query (src/index.tsx:466-480). -/
def loadHistoryRecords (table : List StoredRow) : List AnalysisResult :=
  (loadHistorySelect table).map rowToRecord

/-- The component state touched by the two handlers. -/
structure AppState where
  file : Option String
  imagePreview : Option String
  searchText : String
  loading : Bool
  result : Option AnalysisResult
  history : List AnalysisResult
deriving Repr, DecidableEq, Inhabited

/-- Observable external effects of a handler run. -/
inductive Effect where
  | aiIdentify : Effect
  | aiAnalyze : Effect
  | insertRow : RowInsert → Effect
  | selectRecent : Effect
  | alertUser : Effect
  | logError : Effect
deriving Repr, DecidableEq

/-- `true` on the persist effect. -/
def Effect.isInsert : Effect → Bool
  | .insertRow _ => true
  | _ => false

/-- Number of store inserts in an effect trace. -/
def countInserts (tr : List Effect) : Nat := tr.countP Effect.isInsert

/-- Environment of one `handleAnalyze` run: the outcomes of the two AI calls
(`Except.error` models a thrown network/service error, the payload is the
optional first text part of the first candidate), the grounding chunks, the
insert outcome (the Supabase client returns an error value rather than
throwing), and the store table answering the refresh query. -/
structure AnalyzeEnv where
  jp : String → Option Macros
  identify : Except Unit (Option String)
  analyze : Except Unit (Option String)
  grounding : List GroundingSource
  insertError : Bool
  store : List StoredRow
  selectError : Bool

/-- The food name extraction
`identifyResponse.candidates?.[0]?.content?.parts?.[0]?.text?.trim() || "Unknown food"`
(src/index.tsx:521-523): a missing part and a whitespace-only part both fall
back to the literal. -/
def foodNameOf (txt : Option String) : String :=
  let t := jsTrim (txt.getD "")
  if t = "" then "Unknown food" else t

/-- `handleAnalyze` (src/index.tsx:502-620) as a pure function: the final
component state and the trace of external effects.  Guard: no file or no
preview returns immediately.  Then: identify call (abort + alert on error),
grounded analysis call (abort + alert on error), parse, `setResult`, insert
(log only on failure), and a history refresh only after a successful insert
(log only on a failed refresh).  `finally` clears `loading`. -/
def handleAnalyzeM (env : AnalyzeEnv) (st : AppState) : AppState × List Effect :=
  match st.file, st.imagePreview with
  | some _, some preview =>
    (match env.identify with
     | .error _ => ({ st with loading := false }, [.aiIdentify, .alertUser])
     | .ok identTxt =>
       let foodName := foodNameOf identTxt
       match env.analyze with
       | .error _ =>
         ({ st with loading := false }, [.aiIdentify, .aiAnalyze, .alertUser])
       | .ok analyzeTxt =>
         let fullText := analyzeTxt.getD ""
         let parsed := parseStep env.jp fullText
         let newAnalysis : AnalysisResult :=
           { id := none, name := foodName, summary := parsed.1,
             macros := parsed.2, imageUrl := some preview,
             timestamp := none, sources := env.grounding }
         let row := toInsertRow foodName parsed.1 preview parsed.2
         if env.insertError then
           ({ st with result := some newAnalysis, loading := false },
            [.aiIdentify, .aiAnalyze, .insertRow row, .logError])
         else if env.selectError then
           ({ st with result := some newAnalysis, loading := false },
            [.aiIdentify, .aiAnalyze, .insertRow row, .selectRecent, .logError])
         else
           ({ st with
               result := some newAnalysis
               loading := false
               history := loadHistoryRecords env.store },
            [.aiIdentify, .aiAnalyze, .insertRow row, .selectRecent]))
  | _, _ => (st, [])

/-- Environment of one `handleTextAnalyze` run: the single AI call outcome. -/
structure TextEnv where
  jp : String → Option Macros
  analyze : Except Unit (Option String)

/-- `handleTextAnalyze` (src/index.tsx:674-719) as a pure function.  Guard:
an empty or whitespace-only query returns immediately.  Then: one grounded
analysis call (abort + alert on error), parse via `parseStepText`,
`setResult` — and nothing else: no insert, no history refresh. -/
def handleTextAnalyzeM (env : TextEnv) (st : AppState) : AppState × List Effect :=
  if st.searchText = "" || jsTrim st.searchText = "" then (st, [])
  else
    let foodName := jsTrim st.searchText
    match env.analyze with
    | .error _ => ({ st with loading := false }, [.aiAnalyze, .alertUser])
    | .ok analyzeTxt =>
      let fullText := analyzeTxt.getD ""
      let parsed := parseStepText env.jp fullText
      let newAnalysis : AnalysisResult :=
        { id := none, name := foodName, summary := parsed.1,
          macros := parsed.2, imageUrl := none,
          timestamp := none, sources := [] }
      ({ st with result := some newAnalysis, loading := false }, [.aiAnalyze])

/-- Componentwise non-negativity of a macro set. -/
def macroSetNonneg (m : Macros) : Prop :=
  0 ≤ m.calories ∧ 0 ≤ m.protein ∧ 0 ≤ m.fat ∧ 0 ≤ m.carbs

/-- C1: for every AI response text in which the sentinel `---JSON---` occurs
exactly once — the split yields exactly the chunk `a` before and the chunk
`b` after it — and whose post-sentinel chunk, code fences stripped and
trimmed, parses as the macro object `m`, both parse steps produce the
trimmed pre-sentinel text as the summary and `m` as the macros. -/
theorem C1_parse_exact_sentinel (jp : String → Option Macros)
    (t a b : String) (m : Macros)
    (hsplit : sentinelParts t = [a, b])
    (hjson : jp (jsTrim (stripFences b)) = some m) :
    parseStep jp t = (jsTrim a, m) ∧ parseStepText jp t = (jsTrim a, m) := by
  constructor <;> simp [parseStep, parseStepText, hsplit, hjson]

/-- Witness for C1 at the spec's own example response. -/
theorem C1_parse_exact_sentinel_witness :
    parseStep jsonParseMacros
        "A sweet tropical fruit.\n\n---JSON---\n\x7b\"calories\":105,\"protein\":1,\"fat\":0,\"carbs\":27\x7d"
      = ("A sweet tropical fruit.",
         { calories := 105, protein := 1, fat := 0, carbs := 27 }) :=
  (C1_parse_exact_sentinel jsonParseMacros
      "A sweet tropical fruit.\n\n---JSON---\n\x7b\"calories\":105,\"protein\":1,\"fat\":0,\"carbs\":27\x7d"
      "A sweet tropical fruit.\n\n"
      "\n\x7b\"calories\":105,\"protein\":1,\"fat\":0,\"carbs\":27\x7d"
      { calories := 105, protein := 1, fat := 0, carbs := 27 }
      (by decide) (by decide)).1

/-- C3: for every AI response text that does not contain the sentinel, both
parse steps produce the full raw (untrimmed) response text as the summary
and the all-zero macro set. -/
theorem C3_no_sentinel (jp : String → Option Macros) (t : String)
    (h : containsSentinel t = false) :
    parseStep jp t = (t, zeroMacros) ∧ parseStepText jp t = (t, zeroMacros) := by
  match hp : sentinelParts t with
  | [] => exact ⟨by simp [parseStep, hp], by simp [parseStepText, hp]⟩
  | [a] => exact ⟨by simp [parseStep, hp], by simp [parseStepText, hp]⟩
  | a :: b :: rest =>
    rw [containsSentinel, hp] at h
    simp at h

/-- Witness for C3 at the spec's own example response. -/
theorem C3_no_sentinel_witness :
    parseStep jsonParseMacros "Some text without marker"
      = ("Some text without marker", zeroMacros) :=
  (C3_no_sentinel jsonParseMacros "Some text without marker" (by decide)).1

/-- C8: a record inserted through the flat row shape of
src/index.tsx:595-603 and read back through the row-to-record mapping of
`loadHistory` (src/index.tsx:466-480) keeps its name, summary, image
reference and macro set, whatever `id` and `created_at` the store assigns. -/
theorem C8_roundtrip (name summaryText image_url : String) (m : Macros)
    (rid created : Nat) :
    (rowToRecord (storeRow rid created (toInsertRow name summaryText image_url m))).name
        = name ∧
    (rowToRecord (storeRow rid created (toInsertRow name summaryText image_url m))).summary
        = summaryText ∧
    (rowToRecord (storeRow rid created (toInsertRow name summaryText image_url m))).imageUrl
        = some image_url ∧
    (rowToRecord (storeRow rid created (toInsertRow name summaryText image_url m))).macros
        = m :=
  ⟨rfl, rfl, rfl, rfl⟩

/-- C7: the history query requests at most `historyLimit = 20` rows ordered
by descending `created_at`, so on every store table the answer has at most
twenty records and consecutive records have non-increasing creation time. -/
theorem C7_history_query (table : List StoredRow) :
    historyLimit = 20 ∧
    (loadHistorySelect table).length ≤ 20 ∧
    List.Pairwise createdDesc (loadHistorySelect table) := by
  refine ⟨rfl, ?_, ?_⟩
  · simp [loadHistorySelect, historyLimit, List.length_take]
  · have hs : List.Sorted createdDesc (List.insertionSort createdDesc table) :=
      List.sorted_insertionSort createdDesc table
    exact hs.sublist (List.take_sublist _ _)

/-- The record `handleAnalyze` computes when both AI calls succeed
(src/index.tsx:578-586): identified name, parsed summary and macros, the
preview as image reference, the grounding chunks as sources. -/
def analysisOk (jp : String → Option Macros) (i a : Option String)
    (g : List GroundingSource) (p : String) : AnalysisResult :=
  { id := none
    name := foodNameOf i
    summary := (parseStep jp (a.getD "")).1
    macros := (parseStep jp (a.getD "")).2
    imageUrl := some p
    timestamp := none
    sources := g }

/-- The row `handleAnalyze` sends to the store on the same run. -/
def rowOk (jp : String → Option Macros) (i a : Option String)
    (p : String) : RowInsert :=
  toInsertRow (foodNameOf i) (parseStep jp (a.getD "")).1 p (parseStep jp (a.getD "")).2

/-- The record `handleTextAnalyze` computes when its AI call succeeds
(src/index.tsx:703-709). -/
def textAnalysisOk (jp : String → Option Macros) (q : String)
    (ta : Option String) : AnalysisResult :=
  { id := none
    name := jsTrim q
    summary := (parseStepText jp (ta.getD "")).1
    macros := (parseStepText jp (ta.getD "")).2
    imageUrl := none
    timestamp := none
    sources := [] }

/-- A run of `handleAnalyze` whose insert fails: the freshly computed result
is set, the failure is only logged, the history is not re-fetched. -/
theorem handleAnalyzeM_insertError (jp : String → Option Macros)
    (i a : Option String) (g : List GroundingSource) (tbl : List StoredRow)
    (se : Bool) (f p q : String) (ld : Bool)
    (res : Option AnalysisResult) (hist : List AnalysisResult) :
    handleAnalyzeM ⟨jp, Except.ok i, Except.ok a, g, true, tbl, se⟩
        ⟨some f, some p, q, ld, res, hist⟩
      = (⟨some f, some p, q, false, some (analysisOk jp i a g p), hist⟩,
         [.aiIdentify, .aiAnalyze, .insertRow (rowOk jp i a p), .logError]) := rfl

/-- A run of `handleAnalyze` whose insert succeeds but whose refresh query
fails: the failure is only logged, the history keeps its previous value. -/
theorem handleAnalyzeM_selectError (jp : String → Option Macros)
    (i a : Option String) (g : List GroundingSource) (tbl : List StoredRow)
    (f p q : String) (ld : Bool)
    (res : Option AnalysisResult) (hist : List AnalysisResult) :
    handleAnalyzeM ⟨jp, Except.ok i, Except.ok a, g, false, tbl, true⟩
        ⟨some f, some p, q, ld, res, hist⟩
      = (⟨some f, some p, q, false, some (analysisOk jp i a g p), hist⟩,
         [.aiIdentify, .aiAnalyze, .insertRow (rowOk jp i a p), .selectRecent,
          .logError]) := rfl

/-- A fully successful run of `handleAnalyze`: result set, row inserted,
history re-fetched through the bounded descending query. -/
theorem handleAnalyzeM_ok (jp : String → Option Macros)
    (i a : Option String) (g : List GroundingSource) (tbl : List StoredRow)
    (f p q : String) (ld : Bool)
    (res : Option AnalysisResult) (hist : List AnalysisResult) :
    handleAnalyzeM ⟨jp, Except.ok i, Except.ok a, g, false, tbl, false⟩
        ⟨some f, some p, q, ld, res, hist⟩
      = (⟨some f, some p, q, false, some (analysisOk jp i a g p),
          loadHistoryRecords tbl⟩,
         [.aiIdentify, .aiAnalyze, .insertRow (rowOk jp i a p), .selectRecent]) := rfl

/-- A run of `handleTextAnalyze` past its guard with a successful AI call:
result set, no insert, no history traffic. -/
theorem handleTextAnalyzeM_ok (jp : String → Option Macros)
    (ta : Option String) (f p : Option String) (q : String) (ld : Bool)
    (res : Option AnalysisResult) (hist : List AnalysisResult)
    (hq : jsTrim q ≠ "") :
    handleTextAnalyzeM ⟨jp, Except.ok ta⟩ ⟨f, p, q, ld, res, hist⟩
      = (⟨f, p, q, false, some (textAnalysisOk jp q ta), hist⟩, [.aiAnalyze]) := by
  have hq0 : q ≠ "" := by
    intro h
    exact hq (by rw [h]; rfl)
  simp [handleTextAnalyzeM, hq, hq0, textAnalysisOk]

/-- No run of `handleTextAnalyze` ever inserts into the store. -/
theorem handleTextAnalyzeM_no_insert (env : TextEnv) (st : AppState) :
    countInserts (handleTextAnalyzeM env st).2 = 0 := by
  rcases env with ⟨jpT, aT⟩
  unfold handleTextAnalyzeM
  dsimp only
  split
  · rfl
  · rcases aT with u | t <;> rfl

/-- Both parse steps return componentwise non-negative macros whenever the
JSON parser only returns componentwise non-negative macro objects: the
zero default and the calorie regex fallback are non-negative by
construction. -/
theorem parseSteps_nonneg (jp : String → Option Macros)
    (hjp : ∀ s m, jp s = some m → macroSetNonneg m) (t : String) :
    macroSetNonneg (parseStep jp t).2 ∧ macroSetNonneg (parseStepText jp t).2 := by
  rcases hp : sentinelParts t with _ | ⟨a, _ | ⟨b, rest⟩⟩
  · constructor <;> simp [parseStep, parseStepText, hp, macroSetNonneg, zeroMacros]
  · constructor <;> simp [parseStep, parseStepText, hp, macroSetNonneg, zeroMacros]
  · rcases hj : jp (jsTrim (stripFences b)) with _ | m
    · constructor <;>
        simp [parseStep, parseStepText, hp, hj, macroSetNonneg, zeroMacros,
          Int.natCast_nonneg]
    · have hm := hjp _ m hj
      exact ⟨by simpa [parseStep, hp, hj] using hm,
             by simpa [parseStepText, hp, hj] using hm⟩

/-- C2 counterexample: the response `"Calories: 500---JSON---notjson"` has
the sentinel, its post-sentinel segment is unparsable, and it carries the
label `Calories: 500` — yet the text-path parse step leaves `calories` at 0:
`handleTextAnalyze`'s catch block has no regex fallback. -/
theorem C2_counterexample :
    jsonParseMacros (jsTrim (stripFences "notjson")) = none ∧
    findCalories "Calories: 500---JSON---notjson" = some 500 ∧
    (parseStepText jsonParseMacros "Calories: 500---JSON---notjson").2
      = zeroMacros := by decide

/-- C2 (amended): for every AI response with a sentinel whose post-sentinel
chunk does not parse, the image-path parse step yields macros all zero
except `calories`, which is the value of the first
`/Calories:?\s*(\d+)/i` match over the whole response (0 when there is
none), while the text-path parse step yields the all-zero macro set; both
return the trimmed pre-sentinel summary, neither aborts. -/
theorem C2_parse_failure_fallback (jp : String → Option Macros)
    (t a b : String) (rest : List String)
    (hsplit : sentinelParts t = a :: b :: rest)
    (hjson : jp (jsTrim (stripFences b)) = none) :
    parseStep jp t
      = (jsTrim a,
         { calories := ((findCalories t).getD 0 : Nat)
           protein := 0, fat := 0, carbs := 0 }) ∧
    parseStepText jp t = (jsTrim a, zeroMacros) := by
  constructor <;> simp [parseStep, parseStepText, hsplit, hjson]

/-- Witness for the amended C2: the image-path fallback recovers 500, the
text path stays at zero. -/
theorem C2_parse_failure_fallback_witness :
    parseStep jsonParseMacros "Calories: 500---JSON---notjson"
      = ("Calories: 500",
         { calories := 500, protein := 0, fat := 0, carbs := 0 }) ∧
    parseStepText jsonParseMacros "Calories: 500---JSON---notjson"
      = ("Calories: 500", zeroMacros) :=
  C2_parse_failure_fallback jsonParseMacros
    "Calories: 500---JSON---notjson" "Calories: 500" "notjson" []
    (by decide) (by decide)

/-- C10 counterexample: two responses with two sentinel occurrences and the
same unparsable middle segment `"notjson"` — the parse draws `calories`
from *outside* that segment (the regex fallback scans the whole text), so
the macros are not parsed solely from the segment between the first and
second occurrences. -/
theorem C10_counterexample :
    sentinelParts "Calories: 500---JSON---notjson---JSON---tail"
      = ["Calories: 500", "notjson", "tail"] ∧
    sentinelParts "Intro---JSON---notjson---JSON---tail"
      = ["Intro", "notjson", "tail"] ∧
    (parseStep jsonParseMacros "Calories: 500---JSON---notjson---JSON---tail").2
      ≠ (parseStep jsonParseMacros "Intro---JSON---notjson---JSON---tail").2 := by
  decide

/-- C10 (amended): with two or more sentinel occurrences the summary is the
trimmed text before the first occurrence, and the *structured* parse reads
solely the segment between the first and second occurrences (fences
stripped, trimmed) — text after the second occurrence never reaches it;
when that parse fails, the image path's calorie fallback scans the entire
response text (not only the middle segment) and the text path stays at
zero. -/
theorem C10_multi_sentinel (jp : String → Option Macros)
    (t a b : String) (rest : List String)
    (hsplit : sentinelParts t = a :: b :: rest) :
    (parseStep jp t).1 = jsTrim a ∧
    (parseStepText jp t).1 = jsTrim a ∧
    (∀ m, jp (jsTrim (stripFences b)) = some m →
        (parseStep jp t).2 = m ∧ (parseStepText jp t).2 = m) ∧
    (jp (jsTrim (stripFences b)) = none →
        (parseStep jp t).2
          = { calories := ((findCalories t).getD 0 : Nat)
              protein := 0, fat := 0, carbs := 0 } ∧
        (parseStepText jp t).2 = zeroMacros) := by
  refine ⟨?_, ?_, ?_, ?_⟩
  · rcases hj : jp (jsTrim (stripFences b)) with _ | m <;>
      simp [parseStep, hsplit, hj]
  · rcases hj : jp (jsTrim (stripFences b)) with _ | m <;>
      simp [parseStepText, hsplit, hj]
  · intro m hm
    exact ⟨by simp [parseStep, hsplit, hm], by simp [parseStepText, hsplit, hm]⟩
  · intro hn
    exact ⟨by simp [parseStep, hsplit, hn], by simp [parseStepText, hsplit, hn]⟩

/-- Witness for the amended C10: a response with two occurrences and a
parsable middle segment; the tail after the second occurrence is ignored. -/
theorem C10_multi_sentinel_witness :
    (parseStep jsonParseMacros
        "Sum---JSON---\x7b\"calories\":10,\"protein\":2,\"fat\":3,\"carbs\":4\x7d---JSON---ignored").1
      = "Sum" ∧
    (parseStep jsonParseMacros
        "Sum---JSON---\x7b\"calories\":10,\"protein\":2,\"fat\":3,\"carbs\":4\x7d---JSON---ignored").2
      = { calories := 10, protein := 2, fat := 3, carbs := 4 } :=
  have h := C10_multi_sentinel jsonParseMacros
    "Sum---JSON---\x7b\"calories\":10,\"protein\":2,\"fat\":3,\"carbs\":4\x7d---JSON---ignored"
    "Sum" "\x7b\"calories\":10,\"protein\":2,\"fat\":3,\"carbs\":4\x7d" ["ignored"]
    (by decide)
  ⟨h.1, (h.2.2.1 { calories := 10, protein := 2, fat := 3, carbs := 4 }
    (by decide)).1⟩

/-- C4 counterexample: an AI response whose JSON block carries
`"calories": -5` — `JSON.parse` succeeds and the negative value flows
unchecked into the record the analysis produces and displays. -/
theorem C4_counterexample :
    ((handleAnalyzeM
        ⟨jsonParseMacros, Except.ok (some "Banana"),
         Except.ok (some "Tasty.---JSON---\x7b\"calories\":-5,\"protein\":1,\"fat\":0,\"carbs\":27\x7d"),
         [], true, [], false⟩
        ⟨some "file", some "preview", "", false, none, []⟩).1.result.map
      fun r => r.macros.calories) = some (-5) := by decide

/-- C4 (amended): every record either handler produces has componentwise
non-negative macros *provided* the JSON parse only yields componentwise
non-negative macro objects; the zero default and the calorie regex
fallback are non-negative by construction, but a successfully parsed
negative value is stored as-is. -/
theorem C4_macros_nonneg (jp : String → Option Macros)
    (hjp : ∀ s m, jp s = some m → macroSetNonneg m)
    (i a ta : Option String) (g : List GroundingSource) (ie se : Bool)
    (tbl : List StoredRow) (f p q : String) (ld : Bool)
    (res : Option AnalysisResult) (hist : List AnalysisResult) :
    (∀ r, (handleAnalyzeM ⟨jp, Except.ok i, Except.ok a, g, ie, tbl, se⟩
        ⟨some f, some p, q, ld, res, hist⟩).1.result = some r →
      macroSetNonneg r.macros) ∧
    (∀ r, jsTrim q ≠ "" →
      (handleTextAnalyzeM ⟨jp, Except.ok ta⟩
          ⟨some f, some p, q, ld, res, hist⟩).1.result = some r →
      macroSetNonneg r.macros) := by
  constructor
  · intro r hr
    have hpar := (parseSteps_nonneg jp hjp (a.getD "")).1
    cases ie
    · cases se
      · rw [handleAnalyzeM_ok] at hr
        simp at hr
        rw [← hr]
        exact hpar
      · rw [handleAnalyzeM_selectError] at hr
        simp at hr
        rw [← hr]
        exact hpar
    · rw [handleAnalyzeM_insertError] at hr
      simp at hr
      rw [← hr]
      exact hpar
  · intro r hq hr
    have hpat := (parseSteps_nonneg jp hjp (ta.getD "")).2
    rw [handleTextAnalyzeM_ok jp ta (some f) (some p) q ld res hist hq] at hr
    simp at hr
    rw [← hr]
    exact hpat

/-- Witness for the amended C4: with a parser that always fails, the image
path's produced record has non-negative macros. -/
theorem C4_macros_nonneg_witness :
    macroSetNonneg
      (((handleAnalyzeM
          ⟨(fun _ => none), Except.ok (some "Banana"), Except.ok (some "txt"),
           [], true, [], false⟩
          ⟨some "file", some "preview", "apple", false, none, []⟩).1.result.getD
        default).macros) :=
  (C4_macros_nonneg (fun _ => none) (fun _ _ h => Option.noConfusion h)
      (some "Banana") (some "txt") none [] true false [] "file" "preview"
      "apple" false none []).1 _ (by decide)

/-- C5 counterexample: a text-query analysis that completes successfully —
the freshly computed result is set and displayed — while its effect trace
contains no store insert: `handleTextAnalyze` has no persist stage. -/
theorem C5_counterexample :
    ((handleTextAnalyzeM ⟨jsonParseMacros, Except.ok (some "banana text")⟩
        ⟨none, none, "banana", false, none, []⟩).1.result).isSome = true ∧
    countInserts
      (handleTextAnalyzeM ⟨jsonParseMacros, Except.ok (some "banana text")⟩
        ⟨none, none, "banana", false, none, []⟩).2 = 0 := by decide

/-- C5 (amended): only image-path analyses persist: every `handleAnalyze`
run whose two AI calls succeed performs exactly one store insert (whatever
its outcome), while no `handleTextAnalyze` run ever performs one. -/
theorem C5_persist_image_only (jp : String → Option Macros)
    (i a : Option String) (g : List GroundingSource) (ie se : Bool)
    (tbl : List StoredRow) (f p q : String) (ld : Bool)
    (res : Option AnalysisResult) (hist : List AnalysisResult)
    (envT : TextEnv) (stT : AppState) :
    countInserts (handleAnalyzeM ⟨jp, Except.ok i, Except.ok a, g, ie, tbl, se⟩
        ⟨some f, some p, q, ld, res, hist⟩).2 = 1 ∧
    countInserts (handleTextAnalyzeM envT stT).2 = 0 := by
  refine ⟨?_, handleTextAnalyzeM_no_insert envT stT⟩
  cases ie <;> cases se <;> rfl

/-- C6: on a run of `handleAnalyze` whose two AI calls succeed and whose
insert fails, the failure is only logged (no user alert), the history is
not re-fetched and keeps its previous value, and the displayed result is
exactly the freshly computed record — the same record the run with a
successful insert displays; the history refresh query runs exactly when
the insert succeeds. -/
theorem C6_insert_failure_logged (jp : String → Option Macros)
    (i a : Option String) (g : List GroundingSource)
    (tbl : List StoredRow) (se : Bool) (f p q : String) (ld : Bool)
    (res : Option AnalysisResult) (hist : List AnalysisResult) :
    Effect.alertUser
        ∉ (handleAnalyzeM ⟨jp, Except.ok i, Except.ok a, g, true, tbl, se⟩
            ⟨some f, some p, q, ld, res, hist⟩).2 ∧
    Effect.logError
        ∈ (handleAnalyzeM ⟨jp, Except.ok i, Except.ok a, g, true, tbl, se⟩
            ⟨some f, some p, q, ld, res, hist⟩).2 ∧
    Effect.selectRecent
        ∉ (handleAnalyzeM ⟨jp, Except.ok i, Except.ok a, g, true, tbl, se⟩
            ⟨some f, some p, q, ld, res, hist⟩).2 ∧
    (handleAnalyzeM ⟨jp, Except.ok i, Except.ok a, g, true, tbl, se⟩
        ⟨some f, some p, q, ld, res, hist⟩).1.result
      = some (analysisOk jp i a g p) ∧
    (handleAnalyzeM ⟨jp, Except.ok i, Except.ok a, g, false, tbl, se⟩
        ⟨some f, some p, q, ld, res, hist⟩).1.result
      = some (analysisOk jp i a g p) ∧
    (handleAnalyzeM ⟨jp, Except.ok i, Except.ok a, g, true, tbl, se⟩
        ⟨some f, some p, q, ld, res, hist⟩).1.history = hist ∧
    Effect.selectRecent
        ∈ (handleAnalyzeM ⟨jp, Except.ok i, Except.ok a, g, false, tbl, se⟩
            ⟨some f, some p, q, ld, res, hist⟩).2 := by
  rw [handleAnalyzeM_insertError]
  cases se
  · rw [handleAnalyzeM_ok]
    refine ⟨?_, ?_, ?_, rfl, rfl, rfl, ?_⟩ <;> simp
  · rw [handleAnalyzeM_selectError]
    refine ⟨?_, ?_, ?_, rfl, rfl, rfl, ?_⟩ <;> simp

/-- C9 counterexample: both handlers invoked with `loading = true` and their
inputs present still issue AI service requests — neither checks the
`loading` flag, so a second in-flight request is observable. -/
theorem C9_counterexample :
    (⟨some "file", some "preview", "apple", true, none, []⟩ : AppState).loading
        = true ∧
    Effect.aiIdentify
        ∈ (handleAnalyzeM
            ⟨(fun _ => none), Except.ok (some "Banana"), Except.ok (some ""),
             [], true, [], false⟩
            ⟨some "file", some "preview", "apple", true, none, []⟩).2 ∧
    Effect.aiAnalyze
        ∈ (handleTextAnalyzeM ⟨(fun _ => none), Except.ok (some "")⟩
            ⟨some "file", some "preview", "apple", true, none, []⟩).2 := by
  decide

/-- C9 (amended): the handlers do not consult `loading`: with a file and
preview set, `handleAnalyze` issues its identify request whatever the flag
and the service outcomes; with a non-blank query, `handleTextAnalyze`
issues its analysis request likewise; the only invocations returning with
no request are those missing their input (the image path's file/preview
guard shown here). -/
theorem C9_no_loading_guard (jp : String → Option Macros)
    (ident anal : Except Unit (Option String)) (g : List GroundingSource)
    (ie se : Bool) (tbl : List StoredRow) (f p q : String)
    (res : Option AnalysisResult) (hist : List AnalysisResult)
    (envT : TextEnv) (hq : jsTrim q ≠ "") :
    Effect.aiIdentify
        ∈ (handleAnalyzeM ⟨jp, ident, anal, g, ie, tbl, se⟩
            ⟨some f, some p, q, true, res, hist⟩).2 ∧
    Effect.aiAnalyze
        ∈ (handleTextAnalyzeM envT ⟨some f, some p, q, true, res, hist⟩).2 ∧
    handleAnalyzeM ⟨jp, ident, anal, g, ie, tbl, se⟩
        ⟨none, none, q, true, res, hist⟩
      = (⟨none, none, q, true, res, hist⟩, []) := by
  have hq0 : q ≠ "" := by
    intro h
    exact hq (by rw [h]; rfl)
  refine ⟨?_, ?_, rfl⟩
  · rcases ident with u | iv
    · simp [handleAnalyzeM]
    · rcases anal with u | av
      · simp [handleAnalyzeM]
      · cases ie <;> cases se <;> simp [handleAnalyzeM]
  · rcases envT with ⟨jpT, aT⟩
    rcases aT with u | av <;> simp [handleTextAnalyzeM, hq, hq0]

/-- Witness for the amended C9: concrete second triggers while loading. -/
theorem C9_no_loading_guard_witness :
    Effect.aiIdentify
        ∈ (handleAnalyzeM
            ⟨(fun _ => none), Except.ok (some "Banana"), Except.error (),
             [], false, [], false⟩
            ⟨some "file", some "preview", "apple", true, none, []⟩).2 ∧
    Effect.aiAnalyze
        ∈ (handleTextAnalyzeM ⟨(fun _ => none), Except.error ()⟩
            ⟨some "file", some "preview", "apple", true, none, []⟩).2 :=
  have h := C9_no_loading_guard (fun _ => none)
    (Except.ok (some "Banana")) (Except.error ()) [] false false []
    "file" "preview" "apple" none [] ⟨(fun _ => none), Except.error ()⟩
    (by decide)
  ⟨h.1, h.2.1⟩
